import Mathlib

/- Shallow embedding of the Doc-reader-Chatbot core: the document-id
   extractor (doc_loader.py / app.py), the chunker and vector store
   (vector_store.py / app.py), and the RAG orchestrator
   (RAGChatbot.generate_response in app.py and chatbot.py).
   All Python strings are modelled as `List Char`; fallible collaborator
   calls are modelled with `Except`. -/

namespace DocReader

/-- Checks whether `sep` is a leading segment of `text` (character-wise). -/
def leadsWith : List Char → List Char → Bool
  | [], _ => true
  | _ :: _, [] => false
  | a :: as, b :: bs => (a == b) && leadsWith as bs

/-- First occurrence of `sep` inside `text`: returns `(before, after)` with
`text = before ++ sep ++ after`, scanning left to right (the semantics of
Python `str.find` / `str.split` boundaries). -/
def findSplit (sep : List Char) : List Char → Option (List Char × List Char)
  | [] => none
  | c :: rest =>
    if leadsWith sep (c :: rest) then some ([], (c :: rest).drop sep.length)
    else (findSplit sep rest).map (fun pr => (c :: pr.1, pr.2))

/-- Python `str.split(sep)`: split on every non-overlapping occurrence of
`sep`, left to right, keeping empty pieces.  Structural fuel recursion; the
fuel is instantiated to more than the text length, which always suffices
because every step strictly shortens the remaining text. -/
def pySplitF : Nat → List Char → List Char → List (List Char)
  | 0, _, text => [text]
  | fuel + 1, sep, text =>
    match findSplit sep text with
    | none => [text]
    | some (pre, post) => pre :: pySplitF fuel sep post

/-- Python `str.split(sep)` at sufficient fuel. -/
def pySplit (sep text : List Char) : List (List Char) :=
  pySplitF (text.length + 1) sep text

/-- Python `sep in text` substring test. -/
def pyContains (sep text : List Char) : Bool :=
  (findSplit sep text).isSome

/-- The literal `'/d/'` from `extract_doc_id`. -/
def dSep : List Char := ['/', 'd', '/']

/-- The literal `'/'` from `extract_doc_id`. -/
def slashSep : List Char := ['/']

/-- `extract_doc_id` from doc_loader.py (duplicated in app.py):
`url.split('/d/')[1].split('/')[0]` when `'/d/' in url`, else `url`. -/
def extract_doc_id (url : List Char) : List Char :=
  if pyContains dSep url then
    (pySplit slashSep ((pySplit dSep url).getD 1 [])).getD 0 []
  else url

/-- The characters of `l` before its first `'/'` (all of `l` if none). -/
def upToSlash (l : List Char) : List Char :=
  l.takeWhile (fun c => !(c == '/'))

/-- Claim-worded version of the extractor, to be compared with
`extract_doc_id`: the characters between the first occurrence of `'/d/'`
and the next `'/'` after it (the whole remainder if no later `'/'`
exists); the input unchanged when `'/d/'` does not occur. -/
def specExtractDocId (url : List Char) : List Char :=
  match findSplit dSep url with
  | none => url
  | some (_, rest) => upToSlash rest

/-- Prefixes `sep` onto the first piece of a piece list (used to keep
separators attached to the following piece when splitting). -/
def prependFirst (sep : List Char) : List (List Char) → List (List Char)
  | [] => [sep]
  | x :: xs => (sep ++ x) :: xs

/-- Modelled from the spec: the separator-level split of the chunker
(spec 4.1).  The concrete chunking algorithm lives in the third-party
langchain RecursiveCharacterTextSplitter, which is not part of this
repository; following the spec, a split keeps every separator occurrence
(attached to the following piece) so that no character is lost.  Fuel
recursion as in `pySplitF`. -/
def splitKeepRawF : Nat → List Char → List Char → List (List Char)
  | 0, _, text => [text]
  | fuel + 1, sep, text =>
    match findSplit sep text with
    | none => [text]
    | some (pre, post) => pre :: prependFirst sep (splitKeepRawF fuel sep post)

/-- Separator-preserving split at sufficient fuel, with empty pieces
removed. -/
def splitKeep (sep text : List Char) : List (List Char) :=
  (splitKeepRawF (text.length + 1) sep text).filter (fun p => !p.isEmpty)

/-- The priority-ordered separators of the chunker: paragraph break, line
break, sentence-ending punctuation, whitespace; the final level is the
character boundary (`splitRec` base case). -/
def seps : List (List Char) := [['\n', '\n'], ['\n'], ['.', ' '], [' ']]

/-- Modelled from the spec: recursive separator refinement (spec 4.1).
At each level the text is split on the separator; a piece that still
exceeds `chunk_size` is refined at the next separator level, down to
single characters. -/
def splitRec (chunk_size : Nat) : List (List Char) → List Char → List (List Char)
  | [], text => text.map (fun c => [c])
  | sep :: rest, text =>
    (splitKeep sep text).flatMap
      (fun p => if p.length ≤ chunk_size then [p] else splitRec chunk_size rest p)

/-- The trailing `n` characters of `l` (all of `l` when shorter). -/
def lastN (n : Nat) (l : List Char) : List Char :=
  l.drop (l.length - n)

/-- Modelled from the spec: greedy merge of pieces into chunks
(spec 4.1).  Pieces are merged into the running chunk until adding the
next piece would exceed `chunk_size`; the chunk is then emitted and the
next chunk is seeded with the trailing `chunk_overlap` characters of the
one just emitted. -/
def mergeGo (chunk_size chunk_overlap : Nat) (acc : List Char) : List (List Char) → List (List Char)
  | [] => [acc]
  | p :: ps =>
    if acc.length + p.length ≤ chunk_size then
      mergeGo chunk_size chunk_overlap (acc ++ p) ps
    else
      acc :: mergeGo chunk_size chunk_overlap (lastN chunk_overlap acc ++ p) ps

/-- Modelled from the spec: the chunking algorithm of spec 4.1 (the
langchain RecursiveCharacterTextSplitter used by `chunk_text` is not part
of this repository).  Empty input yields an empty sequence. -/
def chunkCore (chunk_size chunk_overlap : Nat) (text : List Char) : List (List Char) :=
  match splitRec chunk_size seps text with
  | [] => []
  | p :: ps => mergeGo chunk_size chunk_overlap p ps

/-- Error taxonomy relevant to ingestion (spec 7). -/
inductive ChunkError where
  | configurationError
deriving DecidableEq, Repr

/-- `VectorStore.chunk_text` with the configuration constraint of
spec 4.1: `overlap < max_size` is enforced by rejection.  The splitting
itself is modelled from the spec (see `chunkCore`). -/
def chunk_text (text : List Char) (chunk_size chunk_overlap : Nat) :
    Except ChunkError (List (List Char)) :=
  if chunk_overlap < chunk_size then .ok (chunkCore chunk_size chunk_overlap text)
  else .error .configurationError

/-- Claim-worded reconstruction: concatenate the chunks in ordinal order
after removing the first `overlap` characters from every chunk except the
first. -/
def reconstructClaim (overlap : Nat) : List (List Char) → List Char
  | [] => []
  | c :: cs => c ++ (cs.map (List.drop overlap)).flatten

/-- Reconstruction helper: drop from each chunk a prefix as long as the
seed actually taken from the previous chunk, namely
`min overlap (previous chunk length)`. -/
def reconstructMinAux (overlap : Nat) (prev : List Char) : List (List Char) → List Char
  | [] => []
  | c :: cs => c.drop (min overlap prev.length) ++ reconstructMinAux overlap c cs

/-- Amended reconstruction: concatenate the chunks in ordinal order after
removing from every non-first chunk a prefix of length
`min overlap (previous chunk length)`. -/
def reconstructMin (overlap : Nat) : List (List Char) → List Char
  | [] => []
  | c :: cs => c ++ reconstructMinAux overlap c cs

/-- Generalized reconstruction used in proofs: the first chunk loses a
prefix of length `k`. -/
def reconstructK (overlap k : Nat) : List (List Char) → List Char
  | [] => []
  | c :: cs => c.drop k ++ reconstructMinAux overlap c cs

/-- Chunk metadata as built by `ingest_document` / returned by
`retrieve`: `{source, chunk_id}`. -/
structure Meta where
  source : List Char
  chunk_id : Nat
deriving DecidableEq, Repr

/-- One record of the vector-index collaborator (chromadb collection):
`(id, document, metadata)`; embeddings are internal to the collaborator
and never observed by the core. -/
structure Entry where
  eid : List Char
  doc : List Char
  source : List Char
  chunk_id : Nat
deriving DecidableEq, Repr

/-- The session's vector-index state (the chromadb collection of a
`VectorStore`), per the collaborator contract of spec 6. -/
structure Collection where
  entries : List Entry
deriving DecidableEq, Repr

/-- A freshly created collection (`VectorStore.__init__`). -/
def emptyCollection : Collection := ⟨[]⟩

/-- The entries `ingest_document` builds: ids `chunk_{i}`, metadata
`{source: title or "Unknown", chunk_id: i}`, documents the chunks. -/
def mkEntries (title : Option (List Char)) (chunks : List (List Char)) : List Entry :=
  ((List.range chunks.length).zip chunks).map
    (fun ic => ⟨("chunk_").toList ++ Nat.toDigits 10 ic.1, ic.2,
               title.getD ("Unknown").toList, ic.1⟩)

/-- `VectorStore.ingest_document` generalized to an explicit chunking
configuration (the source hardcodes the defaults, see `ingest_document`):
chunk the text, then add every chunk with its id and metadata to the
collection in one `collection.add` call, returning the chunk count. -/
def ingestCfg (st : Collection) (text : List Char) (title : Option (List Char))
    (chunk_size chunk_overlap : Nat) : Except ChunkError (Collection × Nat) :=
  match chunk_text text chunk_size chunk_overlap with
  | .error e => .error e
  | .ok chunks => .ok (⟨st.entries ++ mkEntries title chunks⟩, chunks.length)

/-- `VectorStore.ingest_document` from vector_store.py / app.py: always
uses the default configuration `chunk_size=800, chunk_overlap=200`. -/
def ingest_document (st : Collection) (text : List Char) (title : Option (List Char)) :
    Except ChunkError (Collection × Nat) :=
  ingestCfg st text title 800 200

/-- The chatbot-visible retrieval result: the `[0]`-projections of the
chromadb query answer, as built by `VectorStore.retrieve`.  Distances are
abstract (an opaque-to-the-core collaborator value), modelled as `Nat`. -/
structure RetrievalResult where
  documents : List (List Char)
  metadatas : List Meta
  distances : List Nat
deriving DecidableEq, Repr

/-- Insertion of one scored entry into a distance-ascending ranking. -/
def insertRanked (x : Entry × Nat) : List (Entry × Nat) → List (Entry × Nat)
  | [] => [x]
  | y :: ys => if x.2 < y.2 then x :: y :: ys else y :: insertRanked x ys

/-- Distance-ascending ranking of scored entries (insertion sort). -/
def rankAll : List (Entry × Nat) → List (Entry × Nat)
  | [] => []
  | x :: xs => insertRanked x (rankAll xs)

/-- `VectorStore.retrieve`: queries the vector-index collaborator with
the query text and `n_results=top_k` and projects the single-query
result lists.  The index collaborator is modelled per the contract of
spec 6: it scores every stored entry with the (abstract) distance
function `dist` and returns the `top_k` lowest-distance entries, ranked;
with no stored entries the result lists are empty. -/
def retrieve (st : Collection) (dist : List Char → List Char → Nat)
    (query : List Char) (top_k : Nat) : RetrievalResult :=
  let ranked := (rankAll (st.entries.map (fun e => (e, dist query e.doc)))).take top_k
  ⟨ranked.map (fun p => p.1.doc),
   ranked.map (fun p => ⟨p.1.source, p.1.chunk_id⟩),
   ranked.map (fun p => p.2)⟩

/-- A collaborator failure (any Python exception), carrying `str(e)`. -/
structure CollabError where
  msg : List Char
deriving DecidableEq, Repr

/-- One conversation-history record of app.py's RAGChatbot:
`{"query": ..., "answer": ...}`. -/
structure Turn where
  query : List Char
  answer : List Char
deriving DecidableEq, Repr

/-- One conversation-history record of chatbot.py's RAGChatbot:
`{"query": ..., "answer": ..., "context": retrieval_results}`. -/
structure TurnC where
  query : List Char
  answer : List Char
  context : RetrievalResult
deriving DecidableEq, Repr

/-- The fixed no-evidence sentinel answer. -/
def sentinelNoInfo : List Char :=
  ("I couldn\x27t find relevant information in the document to answer your question.").toList

/-- The system prompt of app.py's generate_response. -/
def systemPromptApp : List Char :=
  ("You are a helpful assistant that answers questions based solely on the provided document context. \nAlways cite your sources using [Section X] format. If the information isn\x27t in the context, say so clearly.").toList

/-- The system prompt of chatbot.py's generate_response (the second line
is indented by eight spaces inside the Python triple-quoted literal). -/
def systemPromptChat : List Char :=
  ("You are a helpful assistant that answers questions based solely on the provided document context. \n        Always cite your sources using [Section X] format. If the information isn\x27t in the context, say so clearly.").toList

/-- One citation-tagged context segment:
`"\n[Section {chunk_id}]: {doc}\n"`. -/
def sectionSeg (m : Meta) (doc : List Char) : List Char :=
  ("\n[Section ").toList ++ Nat.toDigits 10 m.chunk_id ++ ("]: ").toList
    ++ doc ++ ("\n").toList

/-- The context block: the running `context += ...` loop over
`zip(documents, metadatas)`. -/
def contextFor (r : RetrievalResult) : List Char :=
  (r.documents.zip r.metadatas).foldl (fun acc dm => acc ++ sectionSeg dm.2 dm.1) []

/-- The user prompt f-string of generate_response (identical in app.py
and chatbot.py). -/
def userPromptApp (r : RetrievalResult) (user_query : List Char) : List Char :=
  ("Context from document:\n").toList ++ contextFor r
    ++ ("\n\nUser Question: ").toList ++ user_query
    ++ ("\n\nProvide a concise answer with inline citations like [Section X]. If the answer isn\x27t in the context, say \"This information isn\x27t in the document.\"\n").toList

/-- The retrieval-failure answer of app.py:
`f"Error retrieving information: {str(e)}"`. -/
def errRetrieving (e : CollabError) : List Char :=
  ("Error retrieving information: ").toList ++ e.msg

/-- The generation-failure answer of app.py:
`f"Error generating response: {str(e)}"`. -/
def errGenerating (e : CollabError) : List Char :=
  ("Error generating response: ").toList ++ e.msg

/-- `RAGChatbot.generate_response` from app.py.  The retrieval outcome
and the answer-generator collaborator are passed in as `Except`-valued
arguments (a `.error` models a raised Python exception).  The result
carries the answer, the updated conversation history, and the log of
`(system prompt, user prompt)` pairs the generator was invoked with; a
top-level `.error` would model an uncaught exception escaping to the
caller. -/
def generateResponse_app
    (retrieval : Except CollabError RetrievalResult)
    (complete : List Char → List Char → Except CollabError (List Char))
    (history : List Turn) (user_query : List Char) :
    Except CollabError (List Char × List Turn × List (List Char × List Char)) :=
  match retrieval with
  | .error e => .ok (errRetrieving e, history, [])
  | .ok r =>
    if r.documents.isEmpty then
      .ok (sentinelNoInfo, history, [])
    else
      match complete systemPromptApp (userPromptApp r user_query) with
      | .ok answer =>
        .ok (answer, history ++ [⟨user_query, answer⟩],
             [(systemPromptApp, userPromptApp r user_query)])
      | .error e =>
        .ok (errGenerating e, history,
             [(systemPromptApp, userPromptApp r user_query)])

/-- `RAGChatbot.generate_response` from chatbot.py: same flow, but with
no try/except, so a retrieval or generation failure escapes to the
caller, and the appended turn also records the retrieval context. -/
def generateResponse_chatbot
    (retrieval : Except CollabError RetrievalResult)
    (complete : List Char → List Char → Except CollabError (List Char))
    (history : List TurnC) (user_query : List Char) :
    Except CollabError (List Char × List TurnC × List (List Char × List Char)) :=
  match retrieval with
  | .error e => .error e
  | .ok r =>
    if r.documents.isEmpty then
      .ok (sentinelNoInfo, history, [])
    else
      match complete systemPromptChat (userPromptApp r user_query) with
      | .error e => .error e
      | .ok answer =>
        .ok (answer, history ++ [⟨user_query, answer, r⟩],
             [(systemPromptChat, userPromptApp r user_query)])

/-- `l` occurs inside `m` as a contiguous literal substring. -/
def substringOf (l m : List Char) : Prop :=
  ∃ s t, m = s ++ (l ++ t)

/-- A sample single-chunk retrieval result (the scenario of spec 8). -/
def sampleR : RetrievalResult :=
  ⟨[("The sky is blue.").toList], [⟨("User Document").toList, 0⟩], [1]⟩

/-- A sample entry standing for index state left by an earlier ingestion. -/
def oldEntry : Entry :=
  ⟨("old_0").toList, ("old doc").toList, ("Old Title").toList, 0⟩

/-- A session whose index already holds `oldEntry`. -/
def priorStore : Collection := ⟨[oldEntry]⟩

/- ------------------------------------------------------------------ -/
/- Helper lemmas.                                                      -/
/- ------------------------------------------------------------------ -/

theorem leadsWith_append (s : List Char) :
    ∀ t, leadsWith s t = true → t = s ++ t.drop s.length := by
  induction s with
  | nil => intro t _; simp
  | cons a as ih =>
    intro t h
    cases t with
    | nil => simp [leadsWith] at h
    | cons b bs =>
      simp only [leadsWith, Bool.and_eq_true, beq_iff_eq] at h
      obtain ⟨h1, h2⟩ := h
      subst h1
      simpa using ih bs h2

theorem findSplit_some (sep : List Char) :
    ∀ (text pre post : List Char),
      findSplit sep text = some (pre, post) → text = pre ++ sep ++ post := by
  intro text
  induction text with
  | nil => intro pre post h; simp [findSplit] at h
  | cons c rest ih =>
    intro pre post h
    rw [findSplit] at h
    by_cases hl : leadsWith sep (c :: rest) = true
    · rw [if_pos hl] at h
      have hdrop := leadsWith_append sep (c :: rest) hl
      simp only [Option.some.injEq, Prod.mk.injEq] at h
      obtain ⟨h1, h2⟩ := h
      subst h1
      subst h2
      simpa using hdrop
    · rw [if_neg hl] at h
      cases hr : findSplit sep rest with
      | none => rw [hr] at h; simp at h
      | some pr =>
        obtain ⟨p1, p2⟩ := pr
        rw [hr] at h
        simp only [Option.map_some', Option.some.injEq, Prod.mk.injEq] at h
        have hrest := ih p1 p2 hr
        rw [← h.1, ← h.2, hrest]
        simp

theorem prependFirst_flatten (sep : List Char) (l : List (List Char)) :
    (prependFirst sep l).flatten = sep ++ l.flatten := by
  cases l <;> simp [prependFirst]

theorem splitKeepRawF_flatten (sep : List Char) :
    ∀ (fuel : Nat) (text : List Char), (splitKeepRawF fuel sep text).flatten = text := by
  intro fuel
  induction fuel with
  | zero => intro text; simp [splitKeepRawF]
  | succ n ih =>
    intro text
    rw [splitKeepRawF]
    cases hf : findSplit sep text with
    | none => simp
    | some pr =>
      obtain ⟨pre, post⟩ := pr
      have htext := findSplit_some sep text pre post hf
      simp [prependFirst_flatten, ih post, htext, List.append_assoc]

theorem filter_nonempty_flatten :
    ∀ l : List (List Char), (l.filter (fun p => !p.isEmpty)).flatten = l.flatten := by
  intro l
  induction l with
  | nil => simp
  | cons p ps ih => cases p <;> simp [List.filter, ih]

theorem splitKeep_flatten (sep text : List Char) : (splitKeep sep text).flatten = text := by
  rw [splitKeep, filter_nonempty_flatten, splitKeepRawF_flatten]

theorem map_singleton_flatten : ∀ text : List Char, (text.map (fun c => [c])).flatten = text := by
  intro text
  induction text <;> simp_all

theorem flatten_flatMap (f : List Char → List (List Char)) :
    ∀ l : List (List Char), (∀ p ∈ l, (f p).flatten = p) → (l.flatMap f).flatten = l.flatten := by
  intro l
  induction l with
  | nil => intro _; simp
  | cons p ps ih =>
    intro h
    simp only [List.flatMap_cons, List.flatten_append, List.flatten_cons]
    rw [h p (by simp), ih (fun q hq => h q (by simp [hq]))]

theorem splitRec_flatten (chunk_size : Nat) :
    ∀ (ss : List (List Char)) (text : List Char),
      (splitRec chunk_size ss text).flatten = text := by
  intro ss
  induction ss with
  | nil => intro text; simp [splitRec, map_singleton_flatten]
  | cons sep rest ih =>
    intro text
    rw [splitRec, flatten_flatMap _ _ ?_, splitKeep_flatten]
    intro p _
    by_cases hl : p.length ≤ chunk_size
    · simp [hl]
    · simp [hl, ih p]

theorem lastN_length (n : Nat) (l : List Char) : (lastN n l).length = min n l.length := by
  simp only [lastN, List.length_drop]
  omega

theorem reconstructMinAux_eq_K (overlap : Nat) (prev : List Char) (l : List (List Char)) :
    reconstructMinAux overlap prev l = reconstructK overlap (min overlap prev.length) l := by
  cases l <;> simp [reconstructMinAux, reconstructK]

theorem reconstructMin_eq_K (overlap : Nat) (l : List (List Char)) :
    reconstructMin overlap l = reconstructK overlap 0 l := by
  cases l <;> simp [reconstructMin, reconstructK, reconstructMinAux]

theorem mergeGo_reconstruct (cs co : Nat) :
    ∀ (ps : List (List Char)) (acc : List Char) (k : Nat), k ≤ acc.length →
      reconstructK co k (mergeGo cs co acc ps) = acc.drop k ++ ps.flatten := by
  intro ps
  induction ps with
  | nil =>
    intro acc k _
    simp [mergeGo, reconstructK, reconstructMinAux]
  | cons p ps ih =>
    intro acc k hk
    by_cases h : acc.length + p.length ≤ cs
    · rw [mergeGo, if_pos h, ih (acc ++ p) k (by simp; omega),
        List.drop_append_of_le_length hk]
      simp [List.append_assoc]
    · rw [mergeGo, if_neg h]
      rw [reconstructK, reconstructMinAux_eq_K,
        ih (lastN co acc ++ p) (min co acc.length)
          (by rw [List.length_append, lastN_length]; omega)]
      have hseed : (lastN co acc ++ p).drop (min co acc.length) = p := by
        rw [← lastN_length co acc]
        exact List.drop_left _ _
      rw [hseed]
      simp [List.append_assoc]

theorem findSplit_slash_eq :
    ∀ x : List Char,
      (match findSplit slashSep x with | none => x | some pr => pr.1) = upToSlash x := by
  intro x
  induction x with
  | nil => simp [findSplit, upToSlash]
  | cons c rest ih =>
    by_cases hc : c = '/'
    · subst hc
      rw [findSplit]
      have hl : leadsWith slashSep ('/' :: rest) = true := by
        simp [slashSep, leadsWith]
      rw [if_pos hl]
      simp [upToSlash]
    · rw [findSplit]
      have hl : leadsWith slashSep (c :: rest) = false := by
        simp [slashSep, leadsWith]
        exact fun h => absurd h.symm hc
      rw [hl]
      simp only [Bool.false_eq_true, if_false]
      have hup : upToSlash (c :: rest) = c :: upToSlash rest := by
        simp [upToSlash, List.takeWhile_cons, hc]
      rw [hup]
      cases hr : findSplit slashSep rest with
      | none =>
        rw [hr] at ih
        simpa using congrArg (fun l => c :: l) ih
      | some pr =>
        rw [hr] at ih
        simpa using congrArg (fun l => c :: l) ih

theorem pySplitF_head (fuel : Nat) (sep post : List Char) (hfuel : 0 < fuel) :
    (pySplitF fuel sep post).getD 0 [] =
      (match findSplit sep post with | none => post | some pr => pr.1) := by
  cases fuel with
  | zero => omega
  | succ n =>
    rw [pySplitF]
    cases hf : findSplit sep post with
    | none => simp
    | some pr => obtain ⟨p1, p2⟩ := pr; simp

theorem getD0_pySplit (x : List Char) : (pySplit slashSep x).getD 0 [] = upToSlash x := by
  rw [pySplit, pySplitF_head (x.length + 1) slashSep x (by omega)]
  exact findSplit_slash_eq x

theorem pySplit_step (sep url pre post : List Char)
    (hf : findSplit sep url = some (pre, post)) :
    pySplit sep url = pre :: pySplitF url.length sep post := by
  rw [pySplit, pySplitF, hf]

theorem upToSlash_append_slash (a t : List Char) :
    upToSlash (a ++ '/' :: t) = upToSlash a := by
  induction a with
  | nil => simp [upToSlash]
  | cons c a' ih =>
    by_cases hc : c = '/'
    · subst hc; simp [upToSlash]
    · have hb : (!(c == '/')) = true := by simp [hc]
      simp only [upToSlash] at ih ⊢
      simp [List.takeWhile_cons, hb, ih]

theorem foldl_append_flatten {α : Type} (f : α → List Char) :
    ∀ (l : List α) (init : List Char),
      l.foldl (fun acc x => acc ++ f x) init = init ++ (l.map f).flatten := by
  intro l
  induction l with
  | nil => intro init; simp
  | cons x xs ih => intro init; simp [ih, List.append_assoc]

theorem chunkCore_reconstruct (cs co : Nat) (text : List Char) :
    reconstructMin co (chunkCore cs co text) = text := by
  have hflat := splitRec_flatten cs seps text
  unfold chunkCore
  cases hsp : splitRec cs seps text with
  | nil =>
    rw [hsp] at hflat
    simpa [reconstructMin] using hflat
  | cons p ps =>
    rw [hsp] at hflat
    rw [reconstructMin_eq_K, mergeGo_reconstruct cs co ps p 0 (Nat.zero_le _)]
    simpa using hflat

/- ------------------------------------------------------------------ -/
/- Claim theorems.                                                     -/
/- ------------------------------------------------------------------ -/

/-- Claim C1 (counterexample): the RAGChatbot.generate_response of
chatbot.py has no try/except, so a retrieval failure is NOT caught and
converted into an error string: it propagates to the caller.  The claim
that every failure of the retrieval step or of the generator is caught
therefore fails on that code. -/
theorem C1_counterexample :
    generateResponse_chatbot (.error ⟨("connection refused").toList⟩)
      (fun _ _ => .ok (("ok").toList)) [] (("q").toList)
      = .error ⟨("connection refused").toList⟩ := rfl

/-- Claim C1 (amended): the generate_response of app.py — the class the
application actually constructs and queries — never raises: for every
retrieval outcome and every generator collaborator it returns an answer
string (`Except.ok`), converting retrieval failures and generation
failures into deterministic error strings. -/
theorem C1_theorem (retrieval : Except CollabError RetrievalResult)
    (complete : List Char → List Char → Except CollabError (List Char))
    (history : List Turn) (q : List Char) :
    ∃ out, generateResponse_app retrieval complete history q = Except.ok out := by
  cases retrieval with
  | error e => exact ⟨_, rfl⟩
  | ok r =>
    simp only [generateResponse_app]
    by_cases hd : r.documents.isEmpty = true
    · rw [if_pos hd]; exact ⟨_, rfl⟩
    · rw [if_neg hd]
      cases hc : complete systemPromptApp (userPromptApp r q) with
      | ok answer => exact ⟨_, rfl⟩
      | error e => exact ⟨_, rfl⟩

/-- Claim C2: when retrieval returns an empty list of chunks,
generate_response returns exactly the fixed sentinel string and the
generator collaborator is never invoked (the prompt log is empty). -/
theorem C2_theorem (r : RetrievalResult)
    (complete : List Char → List Char → Except CollabError (List Char))
    (history : List Turn) (q : List Char) (h : r.documents = []) :
    generateResponse_app (.ok r) complete history q =
      .ok (sentinelNoInfo, history, []) := by
  simp only [generateResponse_app]
  rw [if_pos (by rw [List.isEmpty_iff]; exact h)]

/-- Claim C2 witness at a concrete empty retrieval result. -/
theorem C2_witness :
    (RetrievalResult.mk [] [] []).documents = [] ∧
    generateResponse_app (.ok (RetrievalResult.mk [] [] []))
      (fun _ _ => .ok (("x").toList)) [] (("q").toList)
      = .ok (sentinelNoInfo, [], []) :=
  ⟨rfl, C2_theorem _ _ _ _ rfl⟩

/-- Claim C3 (counterexample): for text `"ab cdefghijk"` with
`max_size = 10`, `overlap = 5` (a valid configuration), the chunker
emits `["ab", "ab cdefghijk"]`; removing the first 5 characters from the
second chunk and concatenating yields `"abefghijk"`, not the original
text — the first chunk is shorter than the configured overlap, so the
seed taken from it has fewer than `overlap` characters. -/
theorem C3_counterexample :
    chunk_text (("ab cdefghijk").toList) 10 5
      = .ok [("ab").toList, ("ab cdefghijk").toList] ∧
    reconstructClaim 5 [("ab").toList, ("ab cdefghijk").toList]
      ≠ ("ab cdefghijk").toList := by
  constructor
  · rfl
  · decide

/-- Claim C3 (amended): for every text and every valid configuration
(`overlap < max_size`), concatenating the chunks in ordinal order after
removing from every non-first chunk a prefix of length
`min overlap (previous chunk length)` — the seed actually copied from
the previous chunk — reconstructs the text exactly. -/
theorem C3_theorem (text : List Char) (chunk_size chunk_overlap : Nat)
    (h : chunk_overlap < chunk_size) :
    Except.map (reconstructMin chunk_overlap) (chunk_text text chunk_size chunk_overlap)
      = .ok text := by
  unfold chunk_text
  rw [if_pos h]
  simp [Except.map, chunkCore_reconstruct]

/-- Claim C3 witness at the counterexample input. -/
theorem C3_witness :
    5 < 10 ∧
    Except.map (reconstructMin 5) (chunk_text (("ab cdefghijk").toList) 10 5)
      = .ok (("ab cdefghijk").toList) :=
  ⟨by decide, C3_theorem (("ab cdefghijk").toList) 10 5 (by decide)⟩

/-- Claim C4: for every configuration with `overlap ≥ max_size`, both
the chunker and configuration-carrying ingestion fail with
ConfigurationError, so no chunks are produced (the precondition is
enforced by rejection). -/
theorem C4_theorem (st : Collection) (text : List Char) (title : Option (List Char))
    (chunk_size chunk_overlap : Nat) (h : chunk_size ≤ chunk_overlap) :
    chunk_text text chunk_size chunk_overlap = .error .configurationError ∧
    ingestCfg st text title chunk_size chunk_overlap = .error .configurationError := by
  have hn : ¬ chunk_overlap < chunk_size := by omega
  refine ⟨?_, ?_⟩
  · unfold chunk_text; rw [if_neg hn]
  · unfold ingestCfg chunk_text; rw [if_neg hn]

/-- Claim C4 witness at `max_size = overlap = 5`. -/
theorem C4_witness :
    5 ≤ 5 ∧
    (chunk_text (("ab").toList) 5 5 = .error .configurationError ∧
     ingestCfg emptyCollection (("ab").toList) none 5 5 = .error .configurationError) :=
  ⟨by decide, C4_theorem emptyCollection (("ab").toList) none 5 5 (by decide)⟩

/-- Claim C5: for every non-empty retrieval result, generate_response
invokes the generator exactly once, with the fixed system prompt and a
user prompt built from the retrieval result; the context block is the
concatenation, in rank order, of one segment `"\n[Section {id}]: {doc}\n"`
per retrieved chunk, and the user prompt contains the context block and
the original query text as literal substrings. -/
theorem C5_theorem (r : RetrievalResult)
    (complete : List Char → List Char → Except CollabError (List Char))
    (history : List Turn) (q : List Char) (h : r.documents ≠ []) :
    Except.map (fun out => out.2.2) (generateResponse_app (.ok r) complete history q)
      = .ok [(systemPromptApp, userPromptApp r q)] ∧
    contextFor r
      = ((r.documents.zip r.metadatas).map (fun dm => sectionSeg dm.2 dm.1)).flatten ∧
    substringOf (contextFor r) (userPromptApp r q) ∧
    substringOf q (userPromptApp r q) := by
  have hd : r.documents.isEmpty = false := by
    rw [List.isEmpty_eq_false]; exact h
  refine ⟨?_, ?_, ?_, ?_⟩
  · simp only [generateResponse_app, hd, Bool.false_eq_true, if_false]
    cases hc : complete systemPromptApp (userPromptApp r q) <;> simp [Except.map]
  · have := foldl_append_flatten (fun dm : List Char × Meta => sectionSeg dm.2 dm.1)
      (r.documents.zip r.metadatas) []
    simpa [contextFor] using this
  · exact ⟨("Context from document:\n").toList,
      ("\n\nUser Question: ").toList ++ q
        ++ ("\n\nProvide a concise answer with inline citations like [Section X]. If the answer isn\x27t in the context, say \"This information isn\x27t in the document.\"\n").toList,
      by simp [userPromptApp, List.append_assoc]⟩
  · exact ⟨("Context from document:\n").toList ++ contextFor r
        ++ ("\n\nUser Question: ").toList,
      ("\n\nProvide a concise answer with inline citations like [Section X]. If the answer isn\x27t in the context, say \"This information isn\x27t in the document.\"\n").toList,
      by simp [userPromptApp, List.append_assoc]⟩

/-- Claim C5 witness at the single-chunk sample retrieval result. -/
theorem C5_witness :
    sampleR.documents ≠ [] ∧
    (Except.map (fun out => out.2.2)
        (generateResponse_app (.ok sampleR)
          (fun _ _ => .ok (("The sky is blue. [Section 0]").toList)) []
          (("What color is the sky?").toList))
        = .ok [(systemPromptApp, userPromptApp sampleR (("What color is the sky?").toList))] ∧
     contextFor sampleR
       = ((sampleR.documents.zip sampleR.metadatas).map
           (fun dm => sectionSeg dm.2 dm.1)).flatten ∧
     substringOf (contextFor sampleR)
       (userPromptApp sampleR (("What color is the sky?").toList)) ∧
     substringOf (("What color is the sky?").toList)
       (userPromptApp sampleR (("What color is the sky?").toList))) :=
  ⟨by decide,
   C5_theorem sampleR (fun _ _ => .ok (("The sky is blue. [Section 0]").toList)) []
     (("What color is the sky?").toList) (by decide)⟩

/-- Claim C6 (counterexample): when the generator collaborator fails,
app.py's generate_response returns the error answer but appends NO
ConversationTurn — the history stays empty, contradicting the claim that
a turn is appended even for a gracefully failed generation (and app.py
turns record no chunk identifiers at all). -/
theorem C6_counterexample :
    Except.map (fun out => out.2.1)
      (generateResponse_app (.ok sampleR)
        (fun _ _ => .error ⟨("RateLimited").toList⟩) [] (("q").toList))
      = .ok ([] : List Turn) := rfl

/-- Claim C6 (amended): for every non-empty retrieval result, exactly
one ConversationTurn — recording the query and the returned answer text,
but no chunk identifiers — is appended exactly when the generator
succeeds; when the generator fails, the error answer is returned and the
history is left unchanged. -/
theorem C6_theorem (r : RetrievalResult)
    (complete : List Char → List Char → Except CollabError (List Char))
    (history : List Turn) (q : List Char) (h : r.documents ≠ []) :
    generateResponse_app (.ok r) complete history q =
      .ok (match complete systemPromptApp (userPromptApp r q) with
           | .ok a => (a, history ++ [⟨q, a⟩], [(systemPromptApp, userPromptApp r q)])
           | .error e =>
             (errGenerating e, history, [(systemPromptApp, userPromptApp r q)])) := by
  have hd : r.documents.isEmpty = false := by
    rw [List.isEmpty_eq_false]; exact h
  simp only [generateResponse_app, hd, Bool.false_eq_true, if_false]
  cases hc : complete systemPromptApp (userPromptApp r q) <;> rfl

/-- Claim C6 witness: with a succeeding generator, the turn holding the
query and the answer is appended to the (initially empty) history. -/
theorem C6_witness :
    sampleR.documents ≠ [] ∧
    generateResponse_app (.ok sampleR)
        (fun _ _ => .ok (("Blue. [Section 0]").toList)) [] (("q").toList)
      = .ok (("Blue. [Section 0]").toList,
             [⟨("q").toList, ("Blue. [Section 0]").toList⟩],
             [(systemPromptApp, userPromptApp sampleR (("q").toList))]) :=
  ⟨by decide,
   C6_theorem sampleR (fun _ _ => .ok (("Blue. [Section 0]").toList)) []
     (("q").toList) (by decide)⟩

/-- Claim C7 (counterexample): ingestion does NOT clear prior index
state: ingesting `"hi"` into a session whose index already holds
`oldEntry` leaves `oldEntry` in place and appends the new chunk entry. -/
theorem C7_counterexample :
    ingest_document priorStore (("hi").toList) (some (("T2").toList)) =
      .ok (⟨[oldEntry,
             ⟨("chunk_0").toList, ("hi").toList, ("T2").toList, 0⟩]⟩, 1) := rfl

/-- Claim C7 (amended): ingest_document never clears prior index state;
whenever chunking succeeds it appends, in a single add call, one entry
per produced chunk to the existing collection and returns the chunk
count — so all produced chunks land in the index together.  A fresh
index is obtained only by the application constructing a new VectorStore
per document load. -/
theorem C7_theorem (st : Collection) (text : List Char) (title : Option (List Char))
    (chunk_size chunk_overlap : Nat) (cs : List (List Char))
    (h : chunk_text text chunk_size chunk_overlap = .ok cs) :
    ingestCfg st text title chunk_size chunk_overlap =
      .ok (⟨st.entries ++ mkEntries title cs⟩, cs.length) := by
  unfold ingestCfg
  rw [h]

/-- Claim C7 witness at the concrete prior-state ingestion. -/
theorem C7_witness :
    chunk_text (("hi").toList) 800 200 = .ok [("hi").toList] ∧
    ingestCfg priorStore (("hi").toList) (some (("T2").toList)) 800 200 =
      .ok (⟨priorStore.entries ++ mkEntries (some (("T2").toList)) [("hi").toList]⟩, 1) :=
  ⟨rfl, C7_theorem priorStore (("hi").toList) (some (("T2").toList)) 800 200
     [("hi").toList] rfl⟩

/-- Claim C8 (counterexample): on a fresh session in which no ingestion
has ever happened, retrieve returns the empty "no results" retrieval
result — it does not signal any state-violation error (its only error
paths would be collaborator exceptions, and none is raised here). -/
theorem C8_counterexample :
    retrieve emptyCollection (fun _ _ => 0) (("What color is the sky?").toList) 3
      = ⟨[], [], []⟩ := rfl

/-- Claim C8 (amended): for every distance function, query and top-k,
retrieve on a session with an empty (never successfully ingested) index
returns the empty retrieval result rather than signalling a distinct
state-violation error. -/
theorem C8_theorem (dist : List Char → List Char → Nat) (q : List Char) (top_k : Nat) :
    retrieve emptyCollection dist q top_k = ⟨[], [], []⟩ := by
  simp [retrieve, emptyCollection, rankAll]

/-- Claim C9 (counterexample): ingesting the empty document SUCCEEDS
silently: it returns `.ok` with chunk count 0 and leaves the session
with an empty but queryable index — no explicit empty-document error is
reported to the caller. -/
theorem C9_counterexample :
    ingest_document emptyCollection [] (some (("User Document").toList)) =
      .ok (emptyCollection, 0) := rfl

/-- Claim C9 (amended): for the empty document, chunking yields zero
chunks without error, and ingestion succeeds, returning chunk count 0
and leaving the session state unchanged (an empty, still queryable
index); the empty outcome is reported only through the returned count,
never as an error. -/
theorem C9_theorem (st : Collection) (title : Option (List Char)) :
    chunk_text [] 800 200 = .ok [] ∧
    ingest_document st [] title = .ok (st, 0) := by
  refine ⟨rfl, ?_⟩
  unfold ingest_document ingestCfg
  rw [show chunk_text [] 800 200 = .ok [] from rfl]
  simp [mkEntries]

/-- Claim C10: extract_doc_id equals the claim-worded specification: for
every input containing `'/d/'` it returns exactly the characters between
the first occurrence of `'/d/'` and the next `'/'` after it (the whole
remainder if no later `'/'` exists), and for every other input it
returns the input unchanged. -/
theorem C10_theorem (url : List Char) : extract_doc_id url = specExtractDocId url := by
  unfold extract_doc_id specExtractDocId pyContains
  cases hf : findSplit dSep url with
  | none => simp [hf]
  | some pr =>
    obtain ⟨pre, post⟩ := pr
    simp only [hf, Option.isSome_some, if_true]
    rw [pySplit_step dSep url pre post hf]
    simp only [List.getD_cons_succ]
    have hlen : 0 < url.length := by
      have hurl := findSplit_some dSep url pre post hf
      rw [hurl]; simp [dSep]
    rw [pySplitF_head url.length dSep post hlen]
    cases hg : findSplit dSep post with
    | none =>
      simp only
      exact getD0_pySplit post
    | some pr2 =>
      obtain ⟨pre2, post2⟩ := pr2
      simp only
      rw [getD0_pySplit pre2]
      have hpost := findSplit_some dSep post pre2 post2 hg
      rw [hpost]
      have hshape : pre2 ++ dSep ++ post2 = pre2 ++ '/' :: ('d' :: '/' :: post2) := by
        simp [dSep]
      rw [hshape, upToSlash_append_slash]

end DocReader
